import Mathlib

/-!
# Verification of the ice-melt state-machine core

Shallow embedding of `src/ice-melt.py`. Pure functions of the source become
Lean functions; the mutable `IceMeltState` object becomes a record that the
operations transform; Python floats are modelled by exact rationals; calls
that can raise (`val_float`, missing keys) return `Option`. The control
output hook (the `print` in `ControlState.set_value`) is modelled as a trace
field `outputs` appended to on every applied control setting. The unbounded
cascade recursion of `IceMeltState.transition` is modelled with an explicit
fuel parameter bounding the number of cascade hops that are followed; all
theorems about cascades are stated so that the fuel is irrelevant on the
inputs considered.

The Batteries rational operations are irreducible by default, which blocks
the evaluation of concrete machine runs inside `decide`; the development
restores the default reducibility so that concrete scenarios evaluate.
-/

set_option allowUnsafeReducibility true

attribute [semireducible] Rat.add Rat.mul Rat.inv Rat.sub

/-- Embeds `SensorConfig` (src lines 15-23): a sensor scale. The scale fields
are the integers read by `section.getint`; the rendering-only `format` field
is outside the modelled core (spec section 1 puts rendering out of scope). -/
structure SensorConfig where
  name : String
  raw_lo : Int
  raw_hi : Int
  sho_lo : Int
  sho_hi : Int
deriving DecidableEq

/-- Embeds `SensorConfig.__lerp__` (line 26): unclamped linear raw-to-display
interpolation. Python float arithmetic is modelled exactly on rationals. -/
def SensorConfig.lerpRaw (c : SensorConfig) (raw : ℚ) : ℚ :=
  (raw - c.raw_lo) / ((c.raw_hi : ℚ) - c.raw_lo) * ((c.sho_hi : ℚ) - c.sho_lo) + c.sho_lo

/-- Embeds `SensorConfig.lerp` (lines 27-28): interpolation clamped into the
display range. -/
def SensorConfig.lerp (c : SensorConfig) (raw : ℚ) : ℚ :=
  min (c.sho_hi : ℚ) (max (c.sho_lo : ℚ) (c.lerpRaw raw))

/-- The object state `SensorConfig.__init__` (lines 16-23) leaves behind.
`section.getint` parses a present key and otherwise returns its fallback:
0, 0 and 100 for raw low, display low and display high, and `None` for
`raw high`, whose call passes no explicit default. Construction therefore
never fails and performs no validation; a missing raw high (`raw_hi` =
`none` here) or a zero-width raw range surfaces only later, inside
`__lerp__` (`TypeError` and `ZeroDivisionError` respectively). -/
structure SensorConfigInit where
  name : String
  raw_lo : Int
  raw_hi : Option Int
  sho_lo : Int
  sho_hi : Int
deriving DecidableEq

/-- Models `SensorConfig.__init__` (lines 16-23) reading its section: each
scale key is present (`some`) or absent (`none`); the constructed object
stores the `getint` results, fallbacks included, and no error path
exists. -/
def mkSensorConfig (name : String) (rawLo rawHi shoLo shoHi : Option Int) :
    SensorConfigInit :=
  { name := name, raw_lo := rawLo.getD 0, raw_hi := rawHi,
    sho_lo := shoLo.getD 0, sho_hi := shoHi.getD 100 }

/-- Embeds `ControlConfig` (lines 39-47): a control scale (display-to-raw). -/
structure ControlConfig where
  name : String
  raw_lo : Int
  raw_hi : Int
  sho_lo : Int
  sho_hi : Int
deriving DecidableEq

/-- Embeds `ControlConfig.__lerp__` (line 50): unclamped display-to-raw
interpolation (the inverse direction of the sensor mapping). -/
def ControlConfig.lerpRaw (c : ControlConfig) (sho : ℚ) : ℚ :=
  (sho - c.sho_lo) / ((c.sho_hi : ℚ) - c.sho_lo) * ((c.raw_hi : ℚ) - c.raw_lo) + c.raw_lo

/-- Embeds `ControlConfig.lerp` (lines 51-52): clamped into the raw range. -/
def ControlConfig.lerp (c : ControlConfig) (sho : ℚ) : ℚ :=
  min (c.raw_hi : ℚ) (max (c.raw_lo : ℚ) (c.lerpRaw sho))

/-- The object state `ControlConfig.__init__` (lines 40-47) leaves behind,
exactly as `SensorConfigInit`: getint fallbacks, never a failure. -/
structure ControlConfigInit where
  name : String
  raw_lo : Int
  raw_hi : Option Int
  sho_lo : Int
  sho_hi : Int
deriving DecidableEq

/-- Models `ControlConfig.__init__` (lines 40-47), exactly as
`mkSensorConfig`: total, storing the `getint` results with their
fallbacks; no validation, no error path. -/
def mkControlConfig (name : String) (rawLo rawHi shoLo shoHi : Option Int) :
    ControlConfigInit :=
  { name := name, raw_lo := rawLo.getD 0, raw_hi := rawHi,
    sho_lo := shoLo.getD 0, sho_hi := shoHi.getD 100 }

/-- Embeds `SensorTrigger` (lines 76-80): direction is the integer +1
(above) or -1 (below), threshold in display units. -/
structure SensorTrigger where
  sensor : String
  direction : Int
  threshold : ℚ
deriving DecidableEq

/-- Embeds `SensorTrigger.triggers` (lines 82-83):
`direction * val > direction * threshold`. -/
def SensorTrigger.triggers (t : SensorTrigger) (val : ℚ) : Bool :=
  decide ((t.direction : ℚ) * val > (t.direction : ℚ) * t.threshold)

/-- Embeds `StateConfig` (lines 103-158) after its section has been read:
the name, the parsed control settings (`control_settings`, lines 122-126,
values already passed through `int`), the parsed trigger list paired with
target state names (lines 115-118), the optional timed transition stored as
(target, duration) (lines 108-113), and the manual actions (lines 128-132). -/
structure StateConfig where
  name : String
  control_settings : List (String × Int)
  triggers : List (SensorTrigger × String)
  timed_transition : Option (String × ℚ)
  actions : List (String × String)
deriving DecidableEq

/-- Loop body of `StateConfig.trigger` (lines 151-154). -/
def triggerScan (sensor : String) (val : ℚ) :
    List (SensorTrigger × String) → Option String
  | [] => none
  | (tr, tgt) :: rest =>
      if sensor = tr.sensor ∧ tr.triggers val then some tgt
      else triggerScan sensor val rest

/-- Embeds `StateConfig.trigger` (lines 150-154): the first declared trigger
whose sensor name matches and whose condition holds on `val` gives its
target. -/
def StateConfig.trigger (sc : StateConfig) (sensor : String) (val : ℚ) : Option String :=
  triggerScan sensor val sc.triggers

/-- Embeds `SensorState` (lines 193-217): the live value of one sensor.
`as_of` is `none` before the first reading (the `None` timestamp); the
timestamp itself is the abstract clock value passed to `set_raw`. -/
structure SensorState where
  cfg : SensorConfig
  as_of : Option Nat := none
  val : ℚ := 0
deriving DecidableEq

/-- Embeds `SensorState.set_raw` (lines 213-215). -/
def SensorState.set_raw (ss : SensorState) (now : Nat) (v : ℚ) : SensorState :=
  { ss with val := v, as_of := some now }

/-- Embeds `SensorState.val_float` (lines 202-204): raises `ValueError`
(here: `none`) before the first reading, otherwise the clamped display value
of the stored raw value. -/
def SensorState.val_float (ss : SensorState) : Option ℚ :=
  match ss.as_of with
  | none => none
  | some _ => some (ss.cfg.lerp ss.val)

/-- Embeds `ControlState` (lines 219-239): the live value of one control. -/
structure ControlState where
  cfg : ControlConfig
  as_of : Option Nat := none
  val : ℚ := 0
deriving DecidableEq

/-- Embeds `ControlState.set_value` (lines 235-239): stores the value and
timestamp and emits the control-output hook record, the printed pair of the
control name and the clamped raw value `cfg.lerp val`. -/
def ControlState.set_value (cs : ControlState) (now : Nat) (v : ℚ) :
    ControlState × (String × ℚ) :=
  ({ cs with val := v, as_of := some now }, (cs.cfg.name, cs.cfg.lerp v))

/-- The armed one-shot timer of `StateConfig.timer` (lines 134-139): on fire
it would call `transition` with source `src` (the name of the state that
armed it) and target `tgt` after `duration` seconds. -/
structure TimerInfo where
  src : String
  tgt : String
  duration : ℚ
deriving DecidableEq

/-- Models the parsed configuration consumed by `IceMeltState.__init__`
(lines 247-256): the association lists produced by `IceMeltConfig.sensors`,
`controls` and `states`, plus the configured initial state name. -/
structure IceMeltConfig where
  sensors : List (String × SensorConfig)
  controls : List (String × ControlConfig)
  states : List (String × StateConfig)
  initial_state : String
deriving DecidableEq

/-- Embeds the mutable fields of `IceMeltState` (lines 246-256). `outputs`
is the trace of control-output hook invocations (the source prints them);
it lets theorems state that no hook fires. The Python dicts become
association lists looked up by key. -/
structure IceMeltState where
  current_state : Option String
  timer : Option TimerInfo
  sensors : List (String × SensorState)
  controls : List (String × ControlState)
  states : List (String × StateConfig)
  last_transition : Option Nat
  outputs : List (String × ℚ)
deriving DecidableEq

/-- Replace the binding of key `k` in an association list, modelling mutation
of the object stored in a Python dict (keys are unique in the source dicts;
order is preserved). -/
def updateAssoc {α : Type} (l : List (String × α)) (k : String) (v : α) :
    List (String × α) :=
  l.map (fun p => if p.1 = k then (k, v) else p)

/-- Embeds lines 280-281 of `IceMeltState.transition`: apply one declared
control setting. The source raises `KeyError` for a control name absent from
the dict (a misconfiguration that would abort the transition mid-way); that
unreachable-by-valid-config case is modelled as a skip. -/
def applyControl (now : Nat) (st : IceMeltState) (nm : String) (v : Int) : IceMeltState :=
  match st.controls.lookup nm with
  | none => st
  | some cs =>
      let r := cs.set_value now (v : ℚ)
      { st with controls := updateAssoc st.controls nm r.1,
                outputs := st.outputs ++ [r.2] }

/-- Apply all control settings of the entered state, in declaration order. -/
def applyControls (now : Nat) : IceMeltState → List (String × Int) → IceMeltState
  | st, [] => st
  | st, (nm, v) :: rest => applyControls now (applyControl now st nm v) rest

/-- Embeds the cascade re-check loop of `IceMeltState.transition` (lines
286-294): scan the entered state triggers in declaration order; a sensor
missing from the live map (`KeyError`) or with no recorded value
(`ValueError` from `val_float`) is skipped; the first trigger whose
condition holds on the display value gives the cascade target. -/
def findCascade (st : IceMeltState) : List (SensorTrigger × String) → Option String
  | [] => none
  | (tr, nt) :: rest =>
      match st.sensors.lookup tr.sensor with
      | none => findCascade st rest
      | some ss =>
          match ss.val_float with
          | none => findCascade st rest
          | some v => if tr.triggers v then some nt else findCascade st rest

/-- The mutations of a successful `IceMeltState.transition` body (lines
278-284): set the current state, apply the control settings in order,
replace the timer (cancelling whatever was armed) with the entered state
timed transition, and record the transition timestamp. -/
def transitionApply (now : Nat) (st : IceMeltState) (tgt : String)
    (scfg : StateConfig) : IceMeltState :=
  let st1 := { st with current_state := some tgt }
  let st2 := applyControls now st1 scfg.control_settings
  { st2 with
    timer := scfg.timed_transition.map (fun td => ⟨scfg.name, td.1, td.2⟩),
    last_transition := some now }

/-- One locked body of `IceMeltState.transition` (lines 276-294): the
optimistic guard, the mutations of `transitionApply`, and the cascade
check. Returns the updated state and the pending cascade call
(source, target), if any. -/
def transitionStep (now : Nat) (st : IceMeltState) (src : Option String) (tgt : String) :
    IceMeltState × Option (String × String) :=
  if st.current_state = src then
    match st.states.lookup tgt with
    | none => (st, none)
    | some scfg =>
        let st3 := transitionApply now st tgt scfg
        (st3, (findCascade st3 scfg.triggers).map (fun nt => (tgt, nt)))
  else (st, none)

/-- Embeds `IceMeltState.transition` (lines 273-296) including the tail call
on line 296 that resolves a cascade with the just-entered state as source.
`fuel` bounds how many cascade hops are followed (the source recursion is
unbounded); every theorem below is arranged so that its conclusion holds for
the fuel values it quantifies over. -/
def transition (now : Nat) (fuel : Nat) (st : IceMeltState) (src : Option String)
    (tgt : String) : IceMeltState :=
  match fuel with
  | 0 => (transitionStep now st src tgt).1
  | f + 1 =>
      match transitionStep now st src tgt with
      | (st2, none) => st2
      | (st2, some (t, nt)) => transition now f st2 (some t) nt

/-- Embeds `IceMeltState.set_sensor` (lines 258-269): unknown sensor names
are a silent no-op; otherwise store the raw value and timestamp, check the
current state triggers on this sensor display value, and, with the state
name captured before the update as source, resolve a found target through
`transition`. The source would raise `KeyError` on line 265 if the current
state name were not a key of the state table (impossible after a valid
seed, see the invariant theorems); that case is modelled as no trigger.
This helper is the locked body: store the reading, then look for a trigger
target of the current state on this sensor. -/
def set_sensor_core (st : IceMeltState) (sensor : String)
    (ss2 : SensorState) : IceMeltState × Option String :=
  let st2 := { st with sensors := updateAssoc st.sensors sensor ss2 }
  ( st2,
    match st2.current_state.bind (fun s => st2.states.lookup s), ss2.val_float with
    | some scfg, some v => scfg.trigger sensor v
    | _, _ => none )

/-- The outer shape of `IceMeltState.set_sensor` (lines 258-269): unknown
sensor names are a silent no-op; a found trigger target is resolved through
`transition` with the captured pre-call state name as source. -/
def set_sensor (now : Nat) (fuel : Nat) (st : IceMeltState) (sensor : String)
    (value : ℚ) : IceMeltState :=
  match st.sensors.lookup sensor with
  | none => st
  | some ss =>
      match set_sensor_core st sensor (ss.set_raw now value) with
      | (st2, none) => st2
      | (st2, some t) => transition now fuel st2 st.current_state t

/-- Embeds `IceMeltState.__init__` (lines 246-256): empty live values, no
timer, no current state, then the seed call
`transition(None, cfg.initial_state())`. -/
def IceMeltState.init (cfg : IceMeltConfig) (now : Nat) (fuel : Nat) : IceMeltState :=
  let st0 : IceMeltState := {
    current_state := none, timer := none,
    sensors := cfg.sensors.map (fun p => (p.1, { cfg := p.2 })),
    controls := cfg.controls.map (fun p => (p.1, { cfg := p.2 })),
    states := cfg.states,
    last_transition := none, outputs := [] }
  transition now fuel st0 none cfg.initial_state

/-- The invariant of claim C4: the current state name is a key of the state
table. -/
def validCurrent (st : IceMeltState) : Bool :=
  match st.current_state with
  | none => false
  | some s => (st.states.lookup s).isSome

/-- A sensor is unset for the machine when it is absent from the live map or
has no recorded value yet. -/
def sensorUnset (st : IceMeltState) (nm : String) : Bool :=
  match st.sensors.lookup nm with
  | none => true
  | some ss => ss.as_of.isNone

/-- The value of one trigger test as the cascade loop performs it: false
when the sensor is missing or unread, else the condition on the display
value. -/
def evalTrigger (st : IceMeltState) (tr : SensorTrigger) : Bool :=
  match st.sensors.lookup tr.sensor with
  | none => false
  | some ss =>
      match ss.val_float with
      | none => false
      | some v => tr.triggers v

/-! ## String utilities for the trigger-declaration parser -/

/-- The whitespace set of Python `str.split` and `str.strip`. -/
def pyIsSpace (c : Char) : Bool :=
  c == ' ' || c == '\t' || c == '\n' || c == '\r' || c == '\x0b' || c == '\x0c'

/-- Python `str.strip`: drop leading and trailing whitespace. -/
def pyStrip (l : List Char) : List Char :=
  ((l.dropWhile pyIsSpace).reverse.dropWhile pyIsSpace).reverse

/-- Helper of `pySplit`, carrying the current token reversed. -/
def pySplitAux : List Char → List Char → List (List Char)
  | [], acc => if acc = [] then [] else [acc.reverse]
  | c :: rest, acc =>
      if pyIsSpace c then
        if acc = [] then pySplitAux rest [] else acc.reverse :: pySplitAux rest []
      else pySplitAux rest (c :: acc)

/-- Python `str.split()` with no argument: maximal runs of non-whitespace. -/
def pySplit (l : List Char) : List (List Char) :=
  pySplitAux l []

/-- Decimal digits folded into a natural number. -/
def digitsToNat (ds : List Char) : Nat :=
  ds.foldl (fun a c => a * 10 + (c.toNat - 48)) 0

/-- Magnitude part of `pyFloat?`: digits with an optional single decimal
point and at least one digit in total. -/
def pyFloatMag? (l : List Char) : Option ℚ :=
  let ip := l.takeWhile Char.isDigit
  let l2 := l.dropWhile Char.isDigit
  match l2 with
  | [] => if ip = [] then none else some (digitsToNat ip : ℚ)
  | '.' :: l3 =>
      let fp := l3.takeWhile Char.isDigit
      let l4 := l3.dropWhile Char.isDigit
      if l4 = [] then
        if ip = [] ∧ fp = [] then none
        else some ((digitsToNat ip : ℚ) + (digitsToNat fp : ℚ) / (10 : ℚ) ^ fp.length)
      else none
  | _ => none

/-- Models `float(token)` (line 99) on the decimal literals a trigger
declaration can carry: optional sign, digits, optional single decimal
point, at least one digit; every other shape is a parse failure (`none`,
the `ValueError` branch). -/
def pyFloat? : List Char → Option ℚ
  | '+' :: r => pyFloatMag? r
  | '-' :: r => (pyFloatMag? r).map (fun q => -q)
  | l => pyFloatMag? l

/-- Python `str.find`: the index of the first occurrence of `needle`, as an
option instead of the -1 sentinel. -/
def firstIdx? (needle : List Char) : List Char → Option Nat
  | [] => if needle.isPrefixOf [] then some 0 else none
  | c :: rest =>
      if needle.isPrefixOf (c :: rest) then some 0
      else (firstIdx? needle rest).map (fun i => i + 1)

/-- Index of the last occurrence of `needle`, used by the spec-worded
forward parser (the rightmost direction keyword). -/
def lastIdx? (needle : List Char) : List Char → Option Nat
  | [] => if needle.isPrefixOf [] then some 0 else none
  | c :: rest =>
      match lastIdx? needle rest with
      | some i => some (i + 1)
      | none => if needle.isPrefixOf (c :: rest) then some 0 else none

/-- Python slice `l[a:b]` for the nonnegative indices the parser uses. -/
def pySlice (l : List Char) (a b : Nat) : List Char :=
  (l.take b).drop a

/-- The keyword `above`, reversed, as searched on line 88. -/
def evobaL : List Char := ['e', 'v', 'o', 'b', 'a']

/-- The keyword `below`, reversed, as searched on line 89. -/
def wolebL : List Char := ['w', 'o', 'l', 'e', 'b']

/-- The keyword `above` forwards. -/
def aboveL : List Char := ['a', 'b', 'o', 'v', 'e']

/-- The keyword `below` forwards. -/
def belowL : List Char := ['b', 'e', 'l', 'o', 'w']

/-- The required declaration head `sensor` (constant on line 9). -/
def sensorL : List Char := ['s', 'e', 'n', 's', 'o', 'r']

/-- The keyword choice of `parse_sensor_trigger` (lines 87-96): search the
reversed declaration for both reversed keywords; none found means no
trigger; otherwise the earlier find in the reversed string (the rightmost
keyword of the original) fixes the direction; ties toward `below` mirror
the else branch of line 94. Returns the direction and the found index in
the reversed string. -/
def pickRev (d : List Char) : Option (Int × Nat) :=
  match firstIdx? evobaL d.reverse, firstIdx? wolebL d.reverse with
  | none, none => none
  | some i, none => some (1, i)
  | none, some j => some (-1, j)
  | some i, some j => if i < j then some (1, i) else some (-1, j)

/-- Shared tail of the parser and of its spec-worded reformulations (lines
98-101): the sensor name is the stripped slice of the declaration from the
end of the `sensor` head to position `cut`, and the threshold is the final
whitespace-delimited token read as a number; a non-numeric token drops the
declaration. -/
def finishTrigger (d : List Char) (dir : Int) (cut : Nat) : Option SensorTrigger :=
  match (pySplit d).getLast? with
  | none => none
  | some tok =>
      match pyFloat? tok with
      | none => none
      | some th => some ⟨String.mk (pyStrip (pySlice d 6 cut)), dir, th⟩

/-- Embeds `parse_sensor_trigger` (lines 85-101) on the character list. The
name slice ends at `len - (i + 5) - 1`, the source arithmetic of lines
93-97; under the required `sensor` head neither keyword can start before
index 6 (no character of `sensor` is `a` or `b`), so the natural-number
subtraction never truncates on inputs that reach it. -/
def parseCore (d : List Char) : Option SensorTrigger :=
  if sensorL.isPrefixOf d then
    match pickRev d with
    | none => none
    | some (dir, i) => finishTrigger d dir (d.length - (i + 5) - 1)
  else none

/-- Embeds `parse_sensor_trigger` (lines 85-101) on strings. -/
def parse_sensor_trigger (description : String) : Option SensorTrigger :=
  parseCore description.toList

/-- Keyword choice worded forwards, as the spec describes it: the rightmost
occurrence of a direction keyword, searched in the declaration itself. -/
def pickLast (d : List Char) : Option (Int × Nat) :=
  match lastIdx? aboveL d, lastIdx? belowL d with
  | none, none => none
  | some p, none => some (1, p)
  | none, some q => some (-1, q)
  | some p, some q => if q < p then some (1, p) else some (-1, q)

/-- The parser exactly as claim C6 words it, on the character list: require
the `sensor` head, take the rightmost direction keyword, extract the sensor
name as the (stripped) text between the head and that keyword, and read
the final whitespace-delimited token as the threshold. -/
def parseSpecCore (d : List Char) : Option SensorTrigger :=
  if sensorL.isPrefixOf d then
    match pickLast d with
    | none => none
    | some (dir, p) => finishTrigger d dir p
  else none

/-- The parser exactly as claim C6 words it, on strings. -/
def parseSensorTriggerSpec (description : String) : Option SensorTrigger :=
  parseSpecCore description.toList

/-- The amended description of the parser on the character list: as
`parseSpecCore`, but the sensor name stops one position before the keyword
(the source slice excludes the character immediately preceding the keyword
as well). -/
def parseAmendedCore (d : List Char) : Option SensorTrigger :=
  if sensorL.isPrefixOf d then
    match pickLast d with
    | none => none
    | some (dir, p) => finishTrigger d dir (p - 1)
  else none

/-- The amended description of the parser, on strings. -/
def parseSensorTriggerAmended (description : String) : Option SensorTrigger :=
  parseAmendedCore description.toList

/-! ## Concrete configurations and machines used by witnesses and scenarios -/

/-- A state with no settings, triggers, timer or actions. -/
def idleCfg : StateConfig := ⟨"idle", [], [], none, []⟩

/-- A one-state machine sitting in `idle`, used to witness the guard. -/
def demoC1 : IceMeltState :=
  ⟨some "idle", none, [], [], [("idle", idleCfg)], none, []⟩

/-- Sensor scale mapping raw [0,100] to display [0,100]. -/
def tCfg : SensorConfig := ⟨"t", 0, 100, 0, 100⟩

/-- A state whose only trigger targets the state itself through sensor `t`:
were an unset sensor treated as matching, entering `S` would loop. -/
def loopState : StateConfig := ⟨"S", [], [(⟨"t", 1, 10⟩, "S")], none, []⟩

/-- Machine in `S` with sensor `t` known but never read. -/
def demoC2 : IceMeltState :=
  ⟨some "S", none, [("t", ⟨tCfg, none, 0⟩)], [], [("S", loopState)], none, []⟩

/-- Sensor scale for the cascade scenario of claim C3. -/
def sCfg : SensorConfig := ⟨"s", 0, 100, 0, 100⟩

/-- Cascade scenario: `A` sends values above 50 to `B`. -/
def stateA : StateConfig := ⟨"A", [], [(⟨"s", 1, 50⟩, "B")], none, []⟩

/-- Cascade scenario: `B` sends values above 50 to `C`. -/
def stateB : StateConfig := ⟨"B", [], [(⟨"s", 1, 50⟩, "C")], none, []⟩

/-- Cascade scenario: `C` declares no trigger. -/
def stateC : StateConfig := ⟨"C", [], [], none, []⟩

/-- Machine in `A` with sensor `s` already read at display value 60. -/
def demoC3 : IceMeltState :=
  ⟨some "A", none, [("s", ⟨sCfg, some 0, 60⟩)], [],
    [("A", stateA), ("B", stateB), ("C", stateC)], none, []⟩

/-- The machine of `demoC3` just after entering `B` at time `now`. -/
def demoC3b (now : Nat) : IceMeltState :=
  ⟨some "B", none, [("s", ⟨sCfg, some 0, 60⟩)], [],
    [("A", stateA), ("B", stateB), ("C", stateC)], some now, []⟩

/-- Sensor `temp`, raw [0,100] to display [0,100] (claim C7 scenario). -/
def tempCfg : SensorConfig := ⟨"temp", 0, 100, 0, 100⟩

/-- Control `heater`, display [0,100] back to raw [0,100]. -/
def heaterCfg : ControlConfig := ⟨"heater", 0, 100, 0, 100⟩

/-- The state `idle` of the C7 scenario with its declared trigger
`sensor temp above 32` sending to `melting`. -/
def idleC7 : StateConfig := ⟨"idle", [], [(⟨"temp", 1, 32⟩, "melting")], none, []⟩

/-- The state `melting` of the C7 scenario, setting `heater` to 100 on
entry. -/
def meltingC7 : StateConfig := ⟨"melting", [("heater", 100)], [], none, []⟩

/-- The C7 machine sitting in `idle`; `temp` has no reading yet. -/
def demoC7 : IceMeltState :=
  ⟨some "idle", none, [("temp", ⟨tempCfg, none, 0⟩)],
    [("heater", ⟨heaterCfg, none, 0⟩)],
    [("idle", idleC7), ("melting", meltingC7)], none, []⟩

/-- The C7 machine after `SetSensor("temp", 40)` stored the reading but
before the resulting transition. -/
def demoC7b (now : Nat) : IceMeltState :=
  ⟨some "idle", none, [("temp", ⟨tempCfg, some now, 40⟩)],
    [("heater", ⟨heaterCfg, none, 0⟩)],
    [("idle", idleC7), ("melting", meltingC7)], none, []⟩

/-- The C7 machine after the whole `SetSensor("temp", 40)` call: in
`melting`, heater set once, one hook record. -/
def demoC7post (now : Nat) : IceMeltState :=
  ⟨some "melting", none, [("temp", ⟨tempCfg, some now, 40⟩)],
    [("heater", ⟨heaterCfg, some now, 100⟩)],
    [("idle", idleC7), ("melting", meltingC7)], some now, [("heater", 100)]⟩

/-- State `X` arming a 5-second timed transition to `Y` (claim C9). -/
def stateX : StateConfig := ⟨"X", [], [], some ("Y", 5), []⟩

/-- State `Y`, plain. -/
def stateY : StateConfig := ⟨"Y", [], [], none, []⟩

/-- State `Z`, plain. -/
def stateZ : StateConfig := ⟨"Z", [], [], none, []⟩

/-- Machine in `X` with the timer from `X` to `Y` armed. -/
def demoC9 : IceMeltState :=
  ⟨some "X", some ⟨"X", "Y", 5⟩, [], [],
    [("X", stateX), ("Y", stateY), ("Z", stateZ)], none, []⟩

/-- Machine that has since moved from `X` to `Z`: the stale timer to `Y`
may still fire. -/
def demoC9z : IceMeltState :=
  ⟨some "Z", none, [], [],
    [("X", stateX), ("Y", stateY), ("Z", stateZ)], some 1, []⟩

/-- A configuration whose initial state names a key of the state table. -/
def goodCfg : IceMeltConfig := ⟨[], [], [("idle", idleCfg)], "idle"⟩

/-- A configuration whose initial state names no key of the state table:
the seed transition is silently guarded away. -/
def badCfg : IceMeltConfig := ⟨[], [], [("idle", idleCfg)], "nope"⟩

/-! ## Frame and guard lemmas -/

/-- Applying one control setting touches only the control map and the
output trace. -/
lemma applyControl_frame (now : Nat) (st : IceMeltState) (nm : String) (v : Int) :
    (applyControl now st nm v).states = st.states ∧
    (applyControl now st nm v).sensors = st.sensors ∧
    (applyControl now st nm v).current_state = st.current_state ∧
    (applyControl now st nm v).timer = st.timer := by
  unfold applyControl
  cases st.controls.lookup nm <;> exact ⟨rfl, rfl, rfl, rfl⟩

/-- Applying a list of control settings touches only the control map and
the output trace. -/
lemma applyControls_frame (now : Nat) (l : List (String × Int)) :
    ∀ st : IceMeltState,
      (applyControls now st l).states = st.states ∧
      (applyControls now st l).sensors = st.sensors ∧
      (applyControls now st l).current_state = st.current_state ∧
      (applyControls now st l).timer = st.timer := by
  induction l with
  | nil => intro st; exact ⟨rfl, rfl, rfl, rfl⟩
  | cons p rest ih =>
      intro st
      obtain ⟨nm, v⟩ := p
      have g := applyControl_frame now st nm v
      have h := ih (applyControl now st nm v)
      exact ⟨h.1.trans g.1, h.2.1.trans g.2.1, h.2.2.1.trans g.2.2.1,
        h.2.2.2.trans g.2.2.2⟩

/-- A transition step never changes the state table or the sensor map. -/
lemma transitionStep_frame (now : Nat) (st : IceMeltState) (src : Option String)
    (tgt : String) :
    (transitionStep now st src tgt).1.states = st.states ∧
    (transitionStep now st src tgt).1.sensors = st.sensors := by
  unfold transitionStep
  by_cases hg : st.current_state = src
  · rw [if_pos hg]
    cases hl : st.states.lookup tgt with
    | none => exact ⟨rfl, rfl⟩
    | some scfg =>
        exact ⟨(applyControls_frame now scfg.control_settings _).1,
          (applyControls_frame now scfg.control_settings _).2.1⟩
  · rw [if_neg hg]; exact ⟨rfl, rfl⟩

/-- A guarded-away call returns the machine untouched with no cascade:
either the source is stale or the target is unknown. -/
lemma transitionStep_stale (now : Nat) (st : IceMeltState) (src : Option String)
    (tgt : String) (h : st.current_state ≠ src ∨ st.states.lookup tgt = none) :
    transitionStep now st src tgt = (st, none) := by
  unfold transitionStep
  rcases h with h | h
  · rw [if_neg h]
  · by_cases hc : st.current_state = src
    · rw [if_pos hc, h]
    · rw [if_neg hc]

/-- The guard of `transition`: a stale source or unknown target is a no-op
for any fuel. -/
lemma transition_stale (now fuel : Nat) (st : IceMeltState) (src : Option String)
    (tgt : String) (h : st.current_state ≠ src ∨ st.states.lookup tgt = none) :
    transition now fuel st src tgt = st := by
  cases fuel <;> simp [transition, transitionStep_stale now st src tgt h]

/-- When the step finds no cascade target the fuel is irrelevant: the call
is the single locked step. -/
lemma transition_of_no_cascade {now : Nat} {st : IceMeltState} {src : Option String}
    {tgt : String} (h : (transitionStep now st src tgt).2 = none) (fuel : Nat) :
    transition now fuel st src tgt = (transitionStep now st src tgt).1 := by
  cases hstep : transitionStep now st src tgt with
  | mk st2 c =>
      rw [hstep] at h
      simp only at h
      subst h
      cases fuel <;> simp [transition, hstep]

/-! ## Claim theorems -/

/-- C1: a call `Transition(source, target)` in which `source` differs from
the current state, or in which `target` is not a key of the state table, is
a silent no-op: the whole machine record — current state, every sensor and
control live value, the active timer, the timestamps, and the
control-output trace (so no hook is invoked) — is returned unchanged. -/
theorem claim1_stale_transition_noop (now fuel : Nat) (st : IceMeltState)
    (src : Option String) (tgt : String)
    (h : st.current_state ≠ src ∨ st.states.lookup tgt = none) :
    transition now fuel st src tgt = st :=
  transition_stale now fuel st src tgt h

/-- C1 witness: a call against the stale source `ghost` leaves the concrete
one-state machine untouched. -/
theorem claim1_witness :
    transition 0 3 demoC1 (some "ghost") "idle" = demoC1 :=
  claim1_stale_transition_noop 0 3 demoC1 (some "ghost") "idle" (Or.inl (by decide))

/-- C5 counterexample to the claim as stated: a sensor section and a
control section whose raw range has `raw low = raw high = 5` (a zero-width
scale) are accepted by the constructors — construction completes normally
with the zero-width range stored, no load-time error of any kind. -/
theorem claim5_counterexample :
    mkSensorConfig "tank" (some 5) (some 5) none none =
      { name := "tank", raw_lo := 5, raw_hi := some 5, sho_lo := 0, sho_hi := 100 } ∧
    mkControlConfig "valve" (some 5) (some 5) none none =
      { name := "valve", raw_lo := 5, raw_hi := some 5, sho_lo := 0, sho_hi := 100 } :=
  ⟨rfl, rfl⟩

/-- C5 amended: loading a sensor or control scale with rawHi equal to
rawLo is not rejected — construction is total, performs no validation,
and stores the zero-width range as-is, so such a ConfigModel does start
the core; the division by zero in `lerp` is not prevented at load, its
denominator being zero on every zero-width scale (in the source that
division raises `ZeroDivisionError` at the first conversion; the rational
model keeps the total convention, so the theorem states the zero
denominator itself). -/
theorem claim5_zero_width_accepted (name : String) (lo : Int)
    (shoLo shoHi : Option Int) (c : SensorConfig) (k : ControlConfig)
    (hc : c.raw_hi = c.raw_lo) (hk : k.raw_hi = k.raw_lo) :
    ((mkSensorConfig name (some lo) (some lo) shoLo shoHi).raw_hi =
      some (mkSensorConfig name (some lo) (some lo) shoLo shoHi).raw_lo) ∧
    ((mkControlConfig name (some lo) (some lo) shoLo shoHi).raw_hi =
      some (mkControlConfig name (some lo) (some lo) shoLo shoHi).raw_lo) ∧
    ((c.raw_hi : ℚ) - (c.raw_lo : ℚ) = 0) ∧
    ((k.raw_hi : ℚ) - (k.raw_lo : ℚ) = 0) := by
  refine ⟨rfl, rfl, ?_, ?_⟩
  · rw [hc]; ring
  · rw [hk]; ring

/-- C5 witness: on the concrete zero-width sensor scale [5,5] the
denominator of the interpolation of `lerpRaw` is zero. -/
theorem claim5_witness :
    ((⟨"t", 5, 5, 0, 100⟩ : SensorConfig).raw_hi : ℚ) -
      ((⟨"t", 5, 5, 0, 100⟩ : SensorConfig).raw_lo : ℚ) = 0 :=
  (claim5_zero_width_accepted "t" 5 none none ⟨"t", 5, 5, 0, 100⟩
    ⟨"v", 5, 5, 0, 100⟩ rfl rfl).2.2.1

/-- C8: `lerp` is the linear interpolation
`(raw - rawLo) / (rawHi - rawLo) * (shoHi - shoLo) + shoLo` clamped into
the display range, and on the scale raw [0,1023] to display [0,100] it
sends raw 0 to 0, raw 1023 to 100, and clamps raw -100 to 0. -/
theorem claim8_lerp_clamped_interpolation (c : SensorConfig) (raw : ℚ) :
    c.lerp raw =
      min (c.sho_hi : ℚ) (max (c.sho_lo : ℚ)
        ((raw - c.raw_lo) / ((c.raw_hi : ℚ) - c.raw_lo) * ((c.sho_hi : ℚ) - c.sho_lo)
          + c.sho_lo)) ∧
    SensorConfig.lerp ⟨"s", 0, 1023, 0, 100⟩ 0 = 0 ∧
    SensorConfig.lerp ⟨"s", 0, 1023, 0, 100⟩ 1023 = 100 ∧
    SensorConfig.lerp ⟨"s", 0, 1023, 0, 100⟩ (-100) = 0 :=
  ⟨rfl, by decide, by decide, by decide⟩

/-- The clamped display value always lies in the display range when the
range is well ordered. -/
lemma lerp_mem (c : SensorConfig) (h : (c.sho_lo : ℚ) ≤ (c.sho_hi : ℚ)) (raw : ℚ) :
    (c.sho_lo : ℚ) ≤ c.lerp raw ∧ c.lerp raw ≤ (c.sho_hi : ℚ) :=
  ⟨le_min h (le_max_left _ _), min_le_left _ _⟩

/-- A trigger whose threshold sits at or beyond the saturating end of the
display range never fires on a value inside the range. -/
lemma trigger_extreme_false (c : SensorConfig) (tr : SensorTrigger) (v : ℚ)
    (hlo : (c.sho_lo : ℚ) ≤ v) (hhi : v ≤ (c.sho_hi : ℚ))
    (hdir : (tr.direction = 1 ∧ (c.sho_hi : ℚ) ≤ tr.threshold) ∨
            (tr.direction = -1 ∧ tr.threshold ≤ (c.sho_lo : ℚ))) :
    tr.triggers v = false := by
  unfold SensorTrigger.triggers
  rw [decide_eq_false_iff_not, not_lt]
  rcases hdir with ⟨hd, ht⟩ | ⟨hd, ht⟩ <;> rw [hd] <;> push_cast <;> nlinarith

/-- Inversion for `val_float`: a produced value is the clamped display
value of the stored raw value. -/
lemma val_float_some {ss : SensorState} {v : ℚ} (h : ss.val_float = some v) :
    v = ss.cfg.lerp ss.val := by
  unfold SensorState.val_float at h
  cases ha : ss.as_of with
  | none => rw [ha] at h; exact absurd h (by simp)
  | some t => rw [ha] at h; injection h with h; exact h.symm

/-- C10: trigger evaluation tests the clamped display value: `set_raw`
followed by `val_float` (the value both `set_sensor` and the cascade
re-check consume) yields exactly `lerp` of the stored raw value, and for a
display range [shoLo, shoHi] an `above` trigger with threshold at or above
shoHi, or a `below` trigger with threshold at or below shoLo, never
matches — pointwise and through the whole cascade scan. -/
theorem claim10_clamped_trigger_evaluation (c : SensorConfig) (raw thr : ℚ)
    (nm : String) (hle : (c.sho_lo : ℚ) ≤ (c.sho_hi : ℚ)) :
    (∀ (ss : SensorState) (now : Nat), ss.cfg = c →
        (ss.set_raw now raw).val_float = some (c.lerp raw)) ∧
    ((c.sho_hi : ℚ) ≤ thr →
        SensorTrigger.triggers ⟨nm, 1, thr⟩ (c.lerp raw) = false) ∧
    (thr ≤ (c.sho_lo : ℚ) →
        SensorTrigger.triggers ⟨nm, -1, thr⟩ (c.lerp raw) = false) ∧
    (∀ (st : IceMeltState) (l : List (SensorTrigger × String)),
        (∀ ss, st.sensors.lookup nm = some ss → ss.cfg = c) →
        (∀ p ∈ l, p.1.sensor = nm ∧
            ((p.1.direction = 1 ∧ (c.sho_hi : ℚ) ≤ p.1.threshold) ∨
             (p.1.direction = -1 ∧ p.1.threshold ≤ (c.sho_lo : ℚ)))) →
        findCascade st l = none) := by
  refine ⟨?_, ?_, ?_, ?_⟩
  · intro ss now h
    simp [SensorState.set_raw, SensorState.val_float, h]
  · intro h2
    exact trigger_extreme_false c ⟨nm, 1, thr⟩ _ (lerp_mem c hle raw).1
      (lerp_mem c hle raw).2 (Or.inl ⟨rfl, h2⟩)
  · intro h2
    exact trigger_extreme_false c ⟨nm, -1, thr⟩ _ (lerp_mem c hle raw).1
      (lerp_mem c hle raw).2 (Or.inr ⟨rfl, h2⟩)
  · intro st l hcfg
    induction l with
    | nil => intro _; rfl
    | cons p rest ih =>
        intro hall
        obtain ⟨tr, t⟩ := p
        obtain ⟨hs, hdir⟩ := hall (tr, t) (List.mem_cons_self _ _)
        have hrest := ih (fun q hq => hall q (List.mem_cons_of_mem _ hq))
        simp only [findCascade]
        rw [hs]
        split
        · exact hrest
        · rename_i ss hlk
          split
          · exact hrest
          · rename_i v hv
            have hc : ss.cfg = c := hcfg ss hlk
            have hveq : v = ss.cfg.lerp ss.val := val_float_some hv
            have hfalse : tr.triggers v = false := by
              apply trigger_extreme_false c tr v ?_ ?_ hdir
              · rw [hveq, hc]; exact (lerp_mem c hle ss.val).1
              · rw [hveq, hc]; exact (lerp_mem c hle ss.val).2
            split
            · rename_i htr
              exact absurd htr (by simp [hfalse])
            · exact hrest

/-- C10 witness: on `temp` with display range [0,100], an `above 100`
trigger does not fire even on the far out-of-range raw value 250. -/
theorem claim10_witness :
    SensorTrigger.triggers ⟨"temp", 1, 100⟩ (tempCfg.lerp 250) = false :=
  (claim10_clamped_trigger_evaluation tempCfg 250 100 "temp" (by decide)).2.1
    (by decide)

/-- C9: the locked body of every successful transition replaces the timer
field — whatever timer was previously active is cancelled and the new
timer is exactly the entered state timed transition, armed with the
entered state name as its source, so at most one timer is ever recorded;
and a timer fire for a state the machine has left (its source differs from
the current state) is a complete no-op. -/
theorem claim9_single_timer_and_stale_fire (now : Nat) (st : IceMeltState)
    (src : Option String) (tgt : String) (scfg : StateConfig)
    (hg : st.current_state = src) (hl : st.states.lookup tgt = some scfg) :
    ((transitionStep now st src tgt).1.timer =
      scfg.timed_transition.map (fun td => ⟨scfg.name, td.1, td.2⟩)) ∧
    (∀ (later fuel : Nat) (st2 : IceMeltState) (X Y : String),
        st2.current_state ≠ some X →
        transition later fuel st2 (some X) Y = st2) := by
  constructor
  · unfold transitionStep
    rw [if_pos hg, hl]
    rfl
  · intro later fuel st2 X Y hx
    exact transition_stale later fuel st2 (some X) Y (Or.inl hx)

/-- C9 witness: entering `Z` disarms the timer the machine armed in `X`,
and the late fire of that stale timer, a `Transition(X, Y)` call against a
machine now in `Z`, changes nothing. -/
theorem claim9_witness :
    (transitionStep 1 demoC9 (some "X") "Z").1.timer = none ∧
    transition 2 3 demoC9z (some "X") "Y" = demoC9z := by
  have h := claim9_single_timer_and_stale_fire 1 demoC9 (some "X") "Z" stateZ rfl
    (by decide)
  exact ⟨h.1, h.2 2 3 demoC9z "X" "Y" (by decide)⟩

/-- The successful-transition mutations leave the state table and the
sensor map alone, set the current state to the target, and arm exactly the
target timed transition. -/
lemma transitionApply_frame (now : Nat) (st : IceMeltState) (tgt : String)
    (scfg : StateConfig) :
    (transitionApply now st tgt scfg).states = st.states ∧
    (transitionApply now st tgt scfg).sensors = st.sensors ∧
    (transitionApply now st tgt scfg).current_state = some tgt :=
  ⟨(applyControls_frame now scfg.control_settings _).1,
   (applyControls_frame now scfg.control_settings _).2.1,
   (applyControls_frame now scfg.control_settings _).2.2.1⟩

/-- A step whose guard passes is the successful body paired with its
cascade check. -/
lemma transitionStep_success (now : Nat) (st : IceMeltState) (src : Option String)
    (tgt : String) (scfg : StateConfig)
    (hg : st.current_state = src) (hl : st.states.lookup tgt = some scfg) :
    transitionStep now st src tgt =
      (transitionApply now st tgt scfg,
       (findCascade (transitionApply now st tgt scfg) scfg.triggers).map
         (fun nt => (tgt, nt))) := by
  unfold transitionStep
  rw [if_pos hg, hl]

/-- `sensorUnset` reads only the sensor map. -/
lemma sensorUnset_congr {st1 st2 : IceMeltState} (h : st1.sensors = st2.sensors)
    (nm : String) : sensorUnset st1 nm = sensorUnset st2 nm := by
  unfold sensorUnset
  rw [h]

/-- An unset sensor found in the map has no recorded value. -/
lemma sensorUnset_some {st : IceMeltState} {nm : String} {ss : SensorState}
    (hu : sensorUnset st nm = true) (hlk : st.sensors.lookup nm = some ss) :
    ss.as_of = none := by
  unfold sensorUnset at hu
  rw [hlk] at hu
  simpa using hu

/-- A sensor with no recorded value raises in `val_float`. -/
lemma val_float_none {ss : SensorState} (h : ss.as_of = none) :
    ss.val_float = none := by
  unfold SensorState.val_float
  rw [h]

/-- The cascade scan over triggers whose sensors are all unset finds
nothing: every such trigger is skipped, never an error. -/
lemma findCascade_of_unset (st : IceMeltState) (l : List (SensorTrigger × String))
    (h : ∀ p ∈ l, sensorUnset st p.1.sensor = true) :
    findCascade st l = none := by
  induction l with
  | nil => rfl
  | cons p rest ih =>
      obtain ⟨tr, t⟩ := p
      have hu := h (tr, t) (List.mem_cons_self _ _)
      have hrest := ih (fun q hq => h q (List.mem_cons_of_mem _ hq))
      simp only [findCascade]
      split
      · exact hrest
      · rename_i ss hlk
        have hv : ss.val_float = none := val_float_none (sensorUnset_some hu hlk)
        split
        · exact hrest
        · rename_i v hv2
          rw [hv] at hv2
          exact absurd hv2 (by simp)

/-- C2: after a successful transition the entered state triggers are
re-checked in declaration order against the live display values — a
trigger whose sensor is missing from the live map or has no recorded value
is skipped as non-matching (never an error), the first trigger whose
sensor has a value on which its condition holds yields the cascade target,
and one whose condition fails is passed over; consequently entering a
state all of whose triggers reference unset sensors produces no cascade at
all, so the call is a single step — the same result for every fuel bound,
hence no loop. -/
theorem claim2_cascade_order_and_unset_skip (st : IceMeltState)
    (tr : SensorTrigger) (t : String) (rest : List (SensorTrigger × String))
    (v : ℚ) (now fuel : Nat) (src : Option String) (tgt : String)
    (scfg : StateConfig) :
    (st.sensors.lookup tr.sensor = none →
        findCascade st ((tr, t) :: rest) = findCascade st rest) ∧
    (∀ ss, st.sensors.lookup tr.sensor = some ss → ss.val_float = none →
        findCascade st ((tr, t) :: rest) = findCascade st rest) ∧
    (∀ ss, st.sensors.lookup tr.sensor = some ss → ss.val_float = some v →
        tr.triggers v = true → findCascade st ((tr, t) :: rest) = some t) ∧
    (∀ ss, st.sensors.lookup tr.sensor = some ss → ss.val_float = some v →
        tr.triggers v = false → findCascade st ((tr, t) :: rest) = findCascade st rest) ∧
    (st.current_state = src → st.states.lookup tgt = some scfg →
        (∀ p ∈ scfg.triggers, sensorUnset st p.1.sensor = true) →
        (transitionStep now st src tgt).2 = none ∧
        transition now fuel st src tgt = (transitionStep now st src tgt).1) := by
  refine ⟨?_, ?_, ?_, ?_, ?_⟩
  · intro hlk
    simp [findCascade, hlk]
  · intro ss hlk hv
    simp [findCascade, hlk, hv]
  · intro ss hlk hv htr
    simp [findCascade, hlk, hv, htr]
  · intro ss hlk hv htr
    simp [findCascade, hlk, hv, htr]
  · intro hg hl hall
    have hsens := (transitionApply_frame now st tgt scfg).2.1
    have hcasc : findCascade (transitionApply now st tgt scfg) scfg.triggers = none :=
      findCascade_of_unset _ _ (fun p hp => by
        rw [sensorUnset_congr hsens]
        exact hall p hp)
    have h2 : (transitionStep now st src tgt).2 = none := by
      rw [transitionStep_success now st src tgt scfg hg hl]
      simp [hcasc]
    exact ⟨h2, transition_of_no_cascade h2 fuel⟩

/-- C2 witness: the machine `demoC2` sits in `S`, whose only trigger
points back at `S` through the unread sensor `t`; re-entering `S` finds no
cascade and is a single step for a generous fuel bound. -/
theorem claim2_witness :
    (transitionStep 0 demoC2 (some "S") "S").2 = none ∧
    transition 0 5 demoC2 (some "S") "S" = (transitionStep 0 demoC2 (some "S") "S").1 :=
  (claim2_cascade_order_and_unset_skip demoC2 ⟨"t", 1, 10⟩ "S" [] 0 0 5
      (some "S") "S" loopState).2.2.2.2 (by decide) (by decide) (by decide)

/-- One locked transition step keeps the current state a key of the state
table, given it is one already or the guard succeeds. -/
lemma transitionStep_valid (now : Nat) (st : IceMeltState) (src : Option String)
    (tgt : String)
    (h : validCurrent st = true ∨
         (st.current_state = src ∧ (st.states.lookup tgt).isSome = true)) :
    validCurrent (transitionStep now st src tgt).1 = true := by
  by_cases hg : st.current_state = src
  · cases hl : st.states.lookup tgt with
    | none =>
        rw [transitionStep_stale now st src tgt (Or.inr hl)]
        rcases h with h | ⟨_, hsome⟩
        · exact h
        · rw [hl] at hsome; simp at hsome
    | some scfg =>
        rw [transitionStep_success now st src tgt scfg hg hl]
        have hc := (transitionApply_frame now st tgt scfg).2.2
        have hs := (transitionApply_frame now st tgt scfg).1
        simp [validCurrent, hc, hs, hl]
  · rw [transitionStep_stale now st src tgt (Or.inl hg)]
    rcases h with h | ⟨hcur, _⟩
    · exact h
    · exact absurd hcur hg

/-- A whole transition call, cascades included, keeps the current state a
key of the state table. -/
lemma transition_valid (now fuel : Nat) (st : IceMeltState) (src : Option String)
    (tgt : String)
    (h : validCurrent st = true ∨
         (st.current_state = src ∧ (st.states.lookup tgt).isSome = true)) :
    validCurrent (transition now fuel st src tgt) = true := by
  induction fuel generalizing st src tgt with
  | zero => exact transitionStep_valid now st src tgt h
  | succ f ih =>
      cases hstep : transitionStep now st src tgt with
      | mk st2 c =>
          have hv : validCurrent st2 = true := by
            have h2 := transitionStep_valid now st src tgt h
            rw [hstep] at h2
            exact h2
          cases c with
          | none =>
              rw [show transition now (f + 1) st src tgt = st2 from by
                simp [transition, hstep]]
              exact hv
          | some p =>
              obtain ⟨t, nt⟩ := p
              rw [show transition now (f + 1) st src tgt =
                  transition now f st2 (some t) nt from by simp [transition, hstep]]
              exact ih st2 (some t) nt (Or.inl hv)

/-- The machine produced by the locked body of `set_sensor` differs from
its input only in the sensor map. -/
lemma validCurrent_set_sensor_core (st : IceMeltState) (sensor : String)
    (ss2 : SensorState) :
    validCurrent (set_sensor_core st sensor ss2).1 = validCurrent st := rfl

/-- A sensor update keeps the current state a key of the state table. -/
lemma set_sensor_valid (now fuel : Nat) (st : IceMeltState) (sensor : String)
    (value : ℚ) (h : validCurrent st = true) :
    validCurrent (set_sensor now fuel st sensor value) = true := by
  unfold set_sensor
  split
  · exact h
  · rename_i ss hlk
    split
    · rename_i st2 hcore
      have h1 : (set_sensor_core st sensor (ss.set_raw now value)).1 = st2 := by
        rw [hcore]
      rw [← h1, validCurrent_set_sensor_core]
      exact h
    · rename_i st2 t hcore
      have h1 : (set_sensor_core st sensor (ss.set_raw now value)).1 = st2 := by
        rw [hcore]
      apply transition_valid
      left
      rw [← h1, validCurrent_set_sensor_core]
      exact h

/-- C4 counterexample to the claim as stated: a configuration whose
initial state name is not a key of the state table constructs a machine
whose seed transition is guarded away, leaving the current state the
uninitialized `none` — not a valid key. -/
theorem claim4_counterexample :
    (IceMeltState.init badCfg 0 3).current_state = none ∧
    validCurrent (IceMeltState.init badCfg 0 3) = false := by
  decide

/-- C4 amended: provided the configured initial state names a key of the
state table, the seeded machine has a current state that is a valid key,
and every operation — any Transition call (manual actions and timer fires
are such calls) and any SetSensor call — preserves this invariant. -/
theorem claim4_current_state_always_valid_key (cfg : IceMeltConfig)
    (now fuel : Nat)
    (hinit : (cfg.states.lookup cfg.initial_state).isSome = true) :
    validCurrent (IceMeltState.init cfg now fuel) = true ∧
    (∀ (now2 fuel2 : Nat) (st : IceMeltState) (src : Option String) (tgt : String),
        validCurrent st = true →
        validCurrent (transition now2 fuel2 st src tgt) = true) ∧
    (∀ (now2 fuel2 : Nat) (st : IceMeltState) (sensor : String) (value : ℚ),
        validCurrent st = true →
        validCurrent (set_sensor now2 fuel2 st sensor value) = true) := by
  refine ⟨?_, fun a b c d e h => transition_valid a b c d e (Or.inl h),
    fun a b c d e h => set_sensor_valid a b c d e h⟩
  unfold IceMeltState.init
  apply transition_valid
  right
  exact ⟨rfl, hinit⟩

/-- C4 witness: on a configuration whose initial state is declared, the
constructed machine sits in a state that is a key of the table. -/
theorem claim4_witness : validCurrent (IceMeltState.init goodCfg 0 3) = true :=
  (claim4_current_state_always_valid_key goodCfg 0 3 (by decide)).1

/-- C3: in the configured cascade scenario — `A` sends values above 50 to
`B`, `B` sends values above 50 to `C`, `C` has no trigger, and sensor `s`
already reads display value 60 — the one call `Transition(A, B)` ends with
the current state `C`, for every cascade budget of at least one hop. -/
theorem claim3_cascade_lands_in_C (now k : Nat) :
    (transition now (k + 1) demoC3 (some "A") "B").current_state = some "C" := by
  have h1 : transition now (k + 1) demoC3 (some "A") "B" =
      transition now k (demoC3b now) (some "B") "C" := by
    have hstep : transitionStep now demoC3 (some "A") "B" =
        (demoC3b now, some ("B", "C")) := rfl
    simp [transition, hstep]
  have h2 : transition now k (demoC3b now) (some "B") "C" =
      (transitionStep now (demoC3b now) (some "B") "C").1 :=
    transition_of_no_cascade (by rfl) k
  rw [h1, h2]
  rfl

/-- C7: in the concrete scenario — states `idle` (current) and `melting`,
sensor `temp` with raw [0,100] to display [0,100], `idle` declaring the
trigger parsed from the declaration `sensor temp above 32` toward
`melting` — the call `SetSensor("temp", 40)` moves the machine exactly
once, to `melting`, and the `melting` control settings are applied exactly
once: the final machine records the one transition and exactly one
control-output hook invocation, for every fuel bound. -/
theorem claim7_set_sensor_scenario (fuel : Nat) :
    parse_sensor_trigger "sensor temp above 32" = some ⟨"temp", 1, 32⟩ ∧
    set_sensor 7 fuel demoC7 "temp" 40 = demoC7post 7 := by
  refine ⟨by decide, ?_⟩
  have hlk : demoC7.sensors.lookup "temp" = some ⟨tempCfg, none, 0⟩ := by decide
  have hcore : set_sensor_core demoC7 "temp"
      (SensorState.set_raw ⟨tempCfg, none, 0⟩ 7 40) = (demoC7b 7, some "melting") := by
    decide
  have hstep2 : (transitionStep 7 (demoC7b 7) (some "idle") "melting").2 = none := by
    decide
  have hstep1 : (transitionStep 7 (demoC7b 7) (some "idle") "melting").1 =
      demoC7post 7 := by decide
  unfold set_sensor
  rw [hlk]
  show (match set_sensor_core demoC7 "temp" (SensorState.set_raw ⟨tempCfg, none, 0⟩ 7 40) with
    | (st2, none) => st2
    | (st2, some t) => transition 7 fuel st2 demoC7.current_state t) = demoC7post 7
  rw [hcore]
  show transition 7 fuel (demoC7b 7) demoC7.current_state "melting" = demoC7post 7
  rw [show demoC7.current_state = some "idle" from rfl,
    transition_of_no_cascade hstep2 fuel]
  exact hstep1

/-! ## Characterizations of the keyword searches -/

/-- Flip of a Boolean hypothesis. -/
lemma bool_eq_false {b : Bool} (h : ¬ b = true) : b = false := by
  cases b
  · rfl
  · exact absurd rfl h

/-- `firstIdx?` finds exactly the least index at which the needle occurs. -/
lemma firstIdx_some (n : List Char) : ∀ (h : List Char) (i : Nat),
    firstIdx? n h = some i ↔
      (n.isPrefixOf (h.drop i) = true ∧
       ∀ j, j < i → n.isPrefixOf (h.drop j) = false) := by
  intro h
  induction h with
  | nil =>
      intro i
      by_cases hp : n.isPrefixOf ([] : List Char) = true
      · constructor
        · intro he
          have hi : i = 0 := by simp [firstIdx?, hp] at he; omega
          subst hi
          exact ⟨by simpa using hp, fun j hj => absurd hj (Nat.not_lt_zero j)⟩
        · rintro ⟨h1, h2⟩
          have hi : i = 0 := by
            by_contra hne
            have h3 := h2 0 (Nat.pos_of_ne_zero hne)
            rw [List.drop_nil] at h3
            exact absurd hp (by simp [h3])
          subst hi
          simp [firstIdx?, hp]
      · have hf : n.isPrefixOf ([] : List Char) = false := bool_eq_false hp
        constructor
        · intro he
          simp [firstIdx?, hf] at he
        · rintro ⟨h1, _⟩
          rw [List.drop_nil] at h1
          exact absurd h1 (by simp [hf])
  | cons c cs ih =>
      intro i
      by_cases hp : n.isPrefixOf (c :: cs) = true
      · constructor
        · intro he
          have hi : i = 0 := by simp [firstIdx?, hp] at he; omega
          subst hi
          exact ⟨by simpa using hp, fun j hj => absurd hj (Nat.not_lt_zero j)⟩
        · rintro ⟨h1, h2⟩
          have hi : i = 0 := by
            by_contra hne
            have h3 := h2 0 (Nat.pos_of_ne_zero hne)
            rw [List.drop_zero] at h3
            exact absurd hp (by simp [h3])
          subst hi
          simp [firstIdx?, hp]
      · have hf : n.isPrefixOf (c :: cs) = false := bool_eq_false hp
        constructor
        · intro he
          simp only [firstIdx?, hf, Bool.false_eq_true, if_false] at he
          rw [Option.map_eq_some'] at he
          obtain ⟨i2, he2, hei⟩ := he
          obtain ⟨ha, hb⟩ := (ih i2).mp he2
          subst hei
          refine ⟨by simpa using ha, ?_⟩
          intro j hj
          cases j with
          | zero => simpa using hf
          | succ j2 =>
              have hj2 : j2 < i2 := by omega
              simpa using hb j2 hj2
        · rintro ⟨h1, h2⟩
          cases i with
          | zero =>
              rw [List.drop_zero] at h1
              exact absurd h1 (by simp [hf])
          | succ i2 =>
              have he2 : firstIdx? n cs = some i2 := (ih i2).mpr
                ⟨by simpa using h1, fun j hj => by simpa using h2 (j + 1) (by omega)⟩
              simp [firstIdx?, hf, he2]

/-- `firstIdx?` returns nothing exactly when the needle occurs nowhere. -/
lemma firstIdx_none (n : List Char) : ∀ h : List Char,
    firstIdx? n h = none ↔ ∀ j, n.isPrefixOf (h.drop j) = false := by
  intro h
  induction h with
  | nil =>
      by_cases hp : n.isPrefixOf ([] : List Char) = true
      · constructor
        · intro he
          simp [firstIdx?, hp] at he
        · intro hall
          have := hall 0
          rw [List.drop_nil] at this
          exact absurd hp (by simp [this])
      · have hf : n.isPrefixOf ([] : List Char) = false := bool_eq_false hp
        constructor
        · intro _ j
          rw [List.drop_nil]
          exact hf
        · intro _
          simp [firstIdx?, hf]
  | cons c cs ih =>
      by_cases hp : n.isPrefixOf (c :: cs) = true
      · constructor
        · intro he
          simp [firstIdx?, hp] at he
        · intro hall
          have := hall 0
          rw [List.drop_zero] at this
          exact absurd hp (by simp [this])
      · have hf : n.isPrefixOf (c :: cs) = false := bool_eq_false hp
        constructor
        · intro he j
          simp only [firstIdx?, hf, Bool.false_eq_true, if_false,
            Option.map_eq_none'] at he
          cases j with
          | zero => simpa using hf
          | succ j2 => simpa using (ih.mp he) j2
        · intro hall
          have hrec : firstIdx? n cs = none :=
            ih.mpr (fun j => by simpa using hall (j + 1))
          simp [firstIdx?, hf, hrec]


/-- `lastIdx?` returns nothing exactly when the needle occurs nowhere. -/
lemma lastIdx_none (n : List Char) : ∀ h : List Char,
    lastIdx? n h = none ↔ ∀ j, n.isPrefixOf (h.drop j) = false := by
  intro h
  induction h with
  | nil =>
      by_cases hp : n.isPrefixOf ([] : List Char) = true
      · constructor
        · intro he
          simp [lastIdx?, hp] at he
        · intro hall
          have h0 := hall 0
          rw [List.drop_nil] at h0
          exact absurd hp (by simp [h0])
      · have hf : n.isPrefixOf ([] : List Char) = false := bool_eq_false hp
        constructor
        · intro _ j
          rw [List.drop_nil]
          exact hf
        · intro _
          simp [lastIdx?, hf]
  | cons c cs ih =>
      cases hrec : lastIdx? n cs with
      | some i2 =>
          constructor
          · intro he
            simp [lastIdx?, hrec] at he
          · intro hall
            have hn2 : lastIdx? n cs = none :=
              ih.mpr (fun j => by simpa using hall (j + 1))
            rw [hrec] at hn2
            exact absurd hn2 (by simp)
      | none =>
          by_cases hp : n.isPrefixOf (c :: cs) = true
          · constructor
            · intro he
              simp [lastIdx?, hrec, hp] at he
            · intro hall
              have h0 := hall 0
              rw [List.drop_zero] at h0
              exact absurd hp (by simp [h0])
          · have hf : n.isPrefixOf (c :: cs) = false := bool_eq_false hp
            constructor
            · intro _ j
              cases j with
              | zero => simpa using hf
              | succ j2 => simpa using (ih.mp hrec) j2
            · intro _
              simp [lastIdx?, hrec, hf]

/-- `lastIdx?` finds exactly the greatest index at which a nonempty needle
occurs. -/
lemma lastIdx_some (n : List Char) (hn : n ≠ []) : ∀ (h : List Char) (i : Nat),
    lastIdx? n h = some i ↔
      (n.isPrefixOf (h.drop i) = true ∧
       ∀ j, i < j → n.isPrefixOf (h.drop j) = false) := by
  have hnil : n.isPrefixOf ([] : List Char) = false := by
    cases n with
    | nil => exact absurd rfl hn
    | cons a as => rfl
  intro h
  induction h with
  | nil =>
      intro i
      constructor
      · intro he
        simp [lastIdx?, hnil] at he
      · rintro ⟨h1, _⟩
        rw [List.drop_nil] at h1
        exact absurd h1 (by simp [hnil])
  | cons c cs ih =>
      intro i
      cases hrec : lastIdx? n cs with
      | some i2 =>
          have hocc2 := ((ih i2).mp hrec).1
          have hmax2 := ((ih i2).mp hrec).2
          constructor
          · intro he
            have hi : i = i2 + 1 := by simp [lastIdx?, hrec] at he; omega
            subst hi
            refine ⟨by simpa using hocc2, ?_⟩
            intro j hj
            cases j with
            | zero => omega
            | succ j2 =>
                have hj2 : i2 < j2 := by omega
                simpa using hmax2 j2 hj2
          · rintro ⟨h1, h2⟩
            cases i with
            | zero =>
                have h3 := h2 (i2 + 1) (by omega)
                rw [List.drop_succ_cons] at h3
                exact absurd hocc2 (by simp [h3])
            | succ i3 =>
                have he3 : lastIdx? n cs = some i3 := (ih i3).mpr
                  ⟨by simpa using h1,
                   fun j hj => by simpa using h2 (j + 1) (by omega)⟩
                rw [hrec] at he3
                have hi : i3 = i2 := by injection he3 with e; omega
                subst hi
                simp [lastIdx?, hrec]
      | none =>
          have hnone : ∀ j, n.isPrefixOf (cs.drop j) = false := (lastIdx_none n cs).mp hrec
          by_cases hp : n.isPrefixOf (c :: cs) = true
          · constructor
            · intro he
              have hi : i = 0 := by simp [lastIdx?, hrec, hp] at he; omega
              subst hi
              refine ⟨by simpa using hp, ?_⟩
              intro j hj
              cases j with
              | zero => omega
              | succ j2 => simpa using hnone j2
            · rintro ⟨h1, h2⟩
              cases i with
              | zero => simp [lastIdx?, hrec, hp]
              | succ i2 =>
                  rw [List.drop_succ_cons] at h1
                  exact absurd h1 (by simp [hnone i2])
          · have hf : n.isPrefixOf (c :: cs) = false := bool_eq_false hp
            constructor
            · intro he
              simp [lastIdx?, hrec, hf] at he
            · rintro ⟨h1, h2⟩
              cases i with
              | zero =>
                  rw [List.drop_zero] at h1
                  exact absurd h1 (by simp [hf])
              | succ i2 =>
                  rw [List.drop_succ_cons] at h1
                  exact absurd h1 (by simp [hnone i2])

/-- An occurrence of a nonempty needle at index `i` reverses to an
occurrence of the reversed needle at the mirrored index. -/
lemma occurs_reverse (n h : List Char) (i : Nat) (hn : n ≠ [])
    (hocc : n.isPrefixOf (h.drop i) = true) :
    i + n.length ≤ h.length ∧
    n.reverse.isPrefixOf (h.reverse.drop (h.length - (n.length + i))) = true := by
  rw [List.isPrefixOf_iff_prefix] at hocc
  obtain ⟨t, ht⟩ := hocc
  have hi : i ≤ h.length := by
    by_contra hgt
    push_neg at hgt
    have hdrop : h.drop i = [] := List.drop_eq_nil_of_le (le_of_lt hgt)
    rw [hdrop] at ht
    exact hn (List.append_eq_nil.mp ht).1
  have hdecomp : h = h.take i ++ (n ++ t) := by rw [ht, List.take_append_drop]
  have hlen : h.length = i + (n.length + t.length) := by
    conv_lhs => rw [hdecomp]
    simp [List.length_append, List.length_take, Nat.min_eq_left hi]
  refine ⟨by omega, ?_⟩
  have hrev : h.reverse = t.reverse ++ (n.reverse ++ (h.take i).reverse) := by
    conv_lhs => rw [hdecomp]
    simp [List.reverse_append, List.append_assoc]
  have hidx : h.length - (n.length + i) = t.reverse.length := by
    simp only [List.length_reverse]
    omega
  rw [List.isPrefixOf_iff_prefix, hidx, hrev, List.drop_left]
  exact List.prefix_append n.reverse (h.take i).reverse

/-- No occurrence in the reversed haystack exactly when the reversed needle
has no occurrence in the haystack. -/
lemma first_rev_none (n : List Char) (hn : n ≠ []) (h : List Char) :
    firstIdx? n h.reverse = none ↔ lastIdx? n.reverse h = none := by
  have hrn : n.reverse ≠ ([] : List Char) := by simpa using hn
  rw [firstIdx_none, lastIdx_none]
  constructor
  · intro hall j
    by_contra hb
    have ht : n.reverse.isPrefixOf (h.drop j) = true := by
      cases hx : n.reverse.isPrefixOf (h.drop j) with
      | false => exact absurd hx hb
      | true => rfl
    have hocc := occurs_reverse n.reverse h j hrn ht
    rw [List.reverse_reverse] at hocc
    simp only [List.length_reverse] at hocc
    have hff := hall (h.length - (n.length + j))
    simp [hocc.2] at hff
  · intro hall j
    by_contra hb
    have ht : n.isPrefixOf (h.reverse.drop j) = true := by
      cases hx : n.isPrefixOf (h.reverse.drop j) with
      | false => exact absurd hx hb
      | true => rfl
    have hocc := occurs_reverse n h.reverse j hn ht
    rw [List.reverse_reverse] at hocc
    simp only [List.length_reverse] at hocc
    have hff := hall (h.length - (n.length + j))
    simp [hocc.2] at hff

/-- The first occurrence of the needle in the reversed haystack mirrors to
the last occurrence of the reversed needle in the haystack. -/
lemma last_of_first_rev (n : List Char) (hn : n ≠ []) (h : List Char) (i : Nat)
    (hf : firstIdx? n h.reverse = some i) :
    i + n.length ≤ h.length ∧
    lastIdx? n.reverse h = some (h.length - (n.length + i)) := by
  have hrn : n.reverse ≠ ([] : List Char) := by simpa using hn
  obtain ⟨h1, h2⟩ := (firstIdx_some n h.reverse i).mp hf
  have hocc := occurs_reverse n h.reverse i hn h1
  rw [List.reverse_reverse] at hocc
  simp only [List.length_reverse] at hocc
  have hb1 : i + n.length ≤ h.length := hocc.1
  refine ⟨hb1, ?_⟩
  rw [lastIdx_some n.reverse hrn h]
  refine ⟨by simpa using hocc.2, ?_⟩
  intro j hj
  by_contra hb
  have ht : n.reverse.isPrefixOf (h.drop j) = true := by
    cases hx : n.reverse.isPrefixOf (h.drop j) with
    | false => exact absurd hx hb
    | true => rfl
  have hocc3 := occurs_reverse n.reverse h j hrn ht
  rw [List.reverse_reverse] at hocc3
  simp only [List.length_reverse] at hocc3
  have hb3 : j + n.length ≤ h.length := hocc3.1
  have hlt : h.length - (n.length + j) < i := by omega
  have hff := h2 (h.length - (n.length + j)) hlt
  simp [hocc3.2] at hff

/-- The forward rightmost-keyword search agrees with the source search over
the reversed declaration: the indices mirror, order reverses, and the
direction choice (ties included) coincides. -/
lemma pickLast_eq_pickRev (d : List Char) :
    pickLast d = (pickRev d).map (fun q => (q.1, d.length - (5 + q.2))) := by
  cases hfa : firstIdx? evobaL d.reverse with
  | none =>
      have hla : lastIdx? aboveL d = none := by
        have h0 := (first_rev_none evobaL (by decide) d).mp hfa
        rwa [show evobaL.reverse = aboveL from by decide] at h0
      cases hfb : firstIdx? wolebL d.reverse with
      | none =>
          have hlb : lastIdx? belowL d = none := by
            have h0 := (first_rev_none wolebL (by decide) d).mp hfb
            rwa [show wolebL.reverse = belowL from by decide] at h0
          simp [pickLast, pickRev, hfa, hfb, hla, hlb]
      | some j =>
          have hj := last_of_first_rev wolebL (by decide) d j hfb
          have hlb : lastIdx? belowL d = some (d.length - (5 + j)) := by
            have h0 := hj.2
            rwa [show wolebL.reverse = belowL from by decide] at h0
          simp [pickLast, pickRev, hfa, hfb, hla, hlb]
  | some i =>
      have hi := last_of_first_rev evobaL (by decide) d i hfa
      have hla : lastIdx? aboveL d = some (d.length - (5 + i)) := by
        have h0 := hi.2
        rwa [show evobaL.reverse = aboveL from by decide] at h0
      cases hfb : firstIdx? wolebL d.reverse with
      | none =>
          have hlb : lastIdx? belowL d = none := by
            have h0 := (first_rev_none wolebL (by decide) d).mp hfb
            rwa [show wolebL.reverse = belowL from by decide] at h0
          simp [pickLast, pickRev, hfa, hfb, hla, hlb]
      | some j =>
          have hj := last_of_first_rev wolebL (by decide) d j hfb
          have hlb : lastIdx? belowL d = some (d.length - (5 + j)) := by
            have h0 := hj.2
            rwa [show wolebL.reverse = belowL from by decide] at h0
          have hb1 : i + 5 ≤ d.length := by simpa [evobaL] using hi.1
          have hb2 : j + 5 ≤ d.length := by simpa [wolebL] using hj.1
          by_cases hij : i < j
          · have hpq : d.length - (5 + j) < d.length - (5 + i) := by omega
            simp [pickLast, pickRev, hfa, hfb, hla, hlb, hij, hpq]
          · have hpq : ¬ d.length - (5 + j) < d.length - (5 + i) := by omega
            simp [pickLast, pickRev, hfa, hfb, hla, hlb, hij, hpq]

/-- The source parser equals the amended forward description on every
character list. -/
lemma parseCore_eq_amendedCore (d : List Char) : parseCore d = parseAmendedCore d := by
  unfold parseCore parseAmendedCore
  by_cases hpre : sensorL.isPrefixOf d = true
  · simp only [hpre, if_true]
    rw [pickLast_eq_pickRev]
    cases hp : pickRev d with
    | none => rfl
    | some q =>
        obtain ⟨dir, i⟩ := q
        show finishTrigger d dir (d.length - (i + 5) - 1) =
          finishTrigger d dir (d.length - (5 + i) - 1)
        rw [show d.length - (i + 5) - 1 = d.length - (5 + i) - 1 from by omega]
  · have hf := bool_eq_false hpre
    simp [hf]

/-- C6 counterexample to the claim as stated: on the declaration
`sensorXYabove 5` the source parser extracts the sensor name `X`, dropping
the character immediately before the keyword, while the claim rule — the
text between the prefix and the keyword — yields `XY`; the two disagree. -/
theorem claim6_counterexample :
    parse_sensor_trigger "sensorXYabove 5" = some ⟨"X", 1, 5⟩ ∧
    parseSensorTriggerSpec "sensorXYabove 5" = some ⟨"XY", 1, 5⟩ ∧
    parse_sensor_trigger "sensorXYabove 5" ≠ parseSensorTriggerSpec "sensorXYabove 5" :=
  ⟨by decide, by decide, by decide⟩

/-- C6 amended: for every trigger declaration string the source parser
behaves exactly as the forward description with the one-character
correction: it requires the `sensor` prefix, locates the rightmost
direction keyword, extracts the sensor name as the whitespace-trimmed text
between the prefix and the position one character before that keyword,
parses the threshold from the final whitespace-delimited token, and yields
no trigger — a silent drop, not an error — when no keyword occurs or the
final token is not numeric. -/
theorem claim6_parser_matches_amended_description (description : String) :
    parse_sensor_trigger description = parseSensorTriggerAmended description :=
  parseCore_eq_amendedCore description.toList
